import Mathlib

/-!
Shallow embedding of `src/app.py` (Meme Scout backend).

Python's semi-structured JSON values are modelled by `JVal`; Python numbers
(ints and floats alike) are modelled by exact rationals `ℚ` — float rounding
error, `inf` and `nan` are outside this model.  Fallible Python operations
(attribute errors on the wrong type, `float()` of a non-numeric value, ...)
are modelled in the `Except String` monad; error *messages* and, where two
fallible operations both fail, the *order* in which they fail, are abstracted
(only success/failure and the success value are faithful).  The implicit
`time.time()` reads in the source are modelled as an explicit `now`
parameter, the standard embedding of an effect.
-/

/-- JSON-like values as delivered by the upstream API and handled by the app. -/
inductive JVal where
  | null
  | bool (b : Bool)
  | num (q : ℚ)
  | str (s : String)
  | arr (l : List JVal)
  | obj (l : List (String × JVal))

/-- Python truthiness (`bool(x)`): `None`, `False`, `0`, `""`, `[]`, `{}` are falsy. -/
def truthy : JVal → Bool
  | .null => false
  | .bool b => b
  | .num q => q != 0
  | .str s => s != ""
  | .arr l => !l.isEmpty
  | .obj l => !l.isEmpty

/-- Python `a or b`: `a` if truthy, else `b`. -/
def pyOr (a b : JVal) : JVal := if truthy a then a else b

/-- Field lookup on an object, `None` (here `.null`) when missing; total helper. -/
def objLookup (p : JVal) (k : String) : JVal :=
  match p with
  | .obj l => (l.lookup k).getD .null
  | _ => .null

/-- Python `p.get(k)`: `AttributeError` unless `p` is a dict; `None` when the key is absent. -/
def getF (p : JVal) (k : String) : Except String JVal :=
  match p with
  | .obj l => .ok ((l.lookup k).getD .null)
  | _ => .error "AttributeError"

/-- Python `p.get(k, d)` with an explicit default. -/
def getFD (p : JVal) (k : String) (d : JVal) : Except String JVal :=
  match p with
  | .obj l => .ok ((l.lookup k).getD d)
  | _ => .error "AttributeError"

/-- Values on which Python numeric comparison/arithmetic succeeds:
`bool` is a subtype of `int` in Python, so it counts as numeric. -/
def numLike : JVal → Bool
  | .num _ => true
  | .bool _ => true
  | _ => false

/-- Numeric value of a `numLike` value (`True` is `1`, `False` is `0`); `0` otherwise. -/
def numVal : JVal → ℚ
  | .num q => q
  | .bool b => if b then 1 else 0
  | _ => 0

/-- Python numeric coercion in arithmetic/comparison context:
`TypeError` unless the value is an int/float/bool. -/
def pyNumQ : JVal → Except String ℚ
  | .num q => .ok q
  | .bool b => .ok (if b then 1 else 0)
  | _ => .error "TypeError"

/-- Decimal digit run to a natural number. -/
def digitsVal (cs : List Char) : ℕ :=
  cs.foldl (fun a c => a * 10 + (c.toNat - 48)) 0

/-- Python's notion of ASCII whitespace as used by `str.strip()`. -/
def isSpaceChar (c : Char) : Bool :=
  c == ' ' || c == '\t' || c == '\n' || c == '\r' ||
  c == Char.ofNat 11 || c == Char.ofNat 12

/-- Parse of a plain decimal literal `[sign] digits [. digits] [(e|E) [sign] digits]`
as Python's `float()` accepts (whitespace-trimmed; `inf`/`nan`/underscores are
outside this model). -/
def pyFloatOfString (s : String) : Option ℚ :=
  let t := (s.data.dropWhile isSpaceChar).reverse.dropWhile isSpaceChar |>.reverse
  let (sgn, rest) : ℚ × List Char :=
    match t with
    | '+' :: r => (1, r)
    | '-' :: r => (-1, r)
    | r => (1, r)
  let (mant, expPart) := rest.span (fun c => c ≠ 'e' ∧ c ≠ 'E')
  let expVal : Option ℤ :=
    match expPart with
    | [] => some 0
    | _ :: e =>
      let (esgn, eds) : ℤ × List Char :=
        match e with
        | '+' :: r => (1, r)
        | '-' :: r => (-1, r)
        | r => (1, r)
      if eds ≠ [] ∧ eds.all Char.isDigit then some (esgn * digitsVal eds) else none
  let (ip, dotFrac) := mant.span (fun c => c ≠ '.')
  let fp : Option (List Char) :=
    match dotFrac with
    | [] => some []
    | _ :: f => if f.all (fun c => c ≠ '.') then some f else none
  match fp, expVal with
  | some f, some e =>
    if (ip ≠ [] ∨ f ≠ []) ∧ ip.all Char.isDigit ∧ f.all Char.isDigit then
      some (sgn * ((digitsVal ip : ℚ) + (digitsVal f : ℚ) / 10 ^ f.length) * 10 ^ e)
    else none
  | _, _ => none

/-- Python `float(x)`: numbers pass through, bools become 0/1, strings are
parsed, everything else is a `TypeError`/`ValueError`. -/
def pyFloat : JVal → Except String ℚ
  | .num q => .ok q
  | .bool b => .ok (if b then 1 else 0)
  | .str s =>
    match pyFloatOfString s with
    | some q => .ok q
    | none => .error "ValueError"
  | _ => .error "TypeError"

/-- Python `str.lower()` on one character (ASCII; Unicode case mapping is
outside this model). -/
def pyLowerChar (c : Char) : Char :=
  if 'A' ≤ c ∧ c ≤ 'Z' then Char.ofNat (c.toNat + 32) else c

/-- Python `str.lower()` (ASCII). -/
def pyLower (s : String) : String := ⟨s.data.map pyLowerChar⟩

/-- Does the first character list start with the second? -/
def listStarts : List Char → List Char → Bool
  | _, [] => true
  | [], _ :: _ => false
  | a :: as, b :: bs => a == b && listStarts as bs

/-- Python `s.startswith(p)`. -/
def pyStartsWith (s p : String) : Bool := listStarts s.data p.data

/-- Python `s.strip()` (ASCII whitespace). -/
def pyStrip (s : String) : String :=
  ⟨((s.data.dropWhile isSpaceChar).reverse.dropWhile isSpaceChar).reverse⟩

/-- Python `s.split(",")`: splitting on every comma, keeping empty segments
(so `"".split(",") == [""]`). -/
def pySplitComma (s : String) : List String :=
  (s.data.foldr
    (fun ch acc =>
      if ch == ',' then [] :: acc else (ch :: acc.headD []) :: acc.tail)
    [[]]).map (fun l => (⟨l⟩ : String))

/-- Python `round` rounds half to even. -/
def roundHalfEven (q : ℚ) : ℤ :=
  let f := ⌊q⌋
  let r := q - f
  if r < 1 / 2 then f
  else if 1 / 2 < r then f + 1
  else if f % 2 = 0 then f else f + 1

/-- Python `round(x, d)` on our rational model of floats. -/
def pyRound (q : ℚ) (d : ℕ) : ℚ :=
  (roundHalfEven (q * 10 ^ d) : ℚ) / 10 ^ d

/-!
## Pair selector (`pick_best_pair_from_list`, src/app.py lines 33-58)

The Python function sorts `candidates` *in place* (`candidates.sort`), and
when no pair matches the chain filter `candidates` *is* the input list
object; the model therefore returns, next to the selected pair, the final
contents of the caller's list object.
-/

/-- Chain key of a pair: `(p.get("chainId") or p.get("chain") or "").lower()`;
raises unless `p` is a dict and the surviving value is a string. -/
def chainKey (p : JVal) : Except String String := do
  let cid ← getF p "chainId"
  let ch ← getF p "chain"
  match pyOr cid (pyOr ch (.str "")) with
  | .str s => pure (pyLower s)
  | _ => .error "AttributeError"

/-- Sort key `liq_usd` of the selector:
`float((liq.get("usd") if isinstance(liq, dict) else 0) or 0)` with
`liq = p.get("liquidity") or {}`. -/
def liq_usd (p : JVal) : Except String ℚ := do
  let liqRaw ← getF p "liquidity"
  let liq := pyOr liqRaw (.obj [])
  let usd := match liq with
    | .obj l => (l.lookup "usd").getD .null
    | _ => .num 0
  pyFloat (pyOr usd (.num 0))

/-- List-comprehension filter of the selector: keeps the pairs whose chain key
starts with the (lowercased) preferred chain, propagating any per-element error. -/
def filterChain : List JVal → String → Except String (List JVal)
  | [], _ => .ok []
  | p :: rest, cl => do
    let k ← chainKey p
    let r ← filterChain rest cl
    pure (if pyStartsWith k cl then p :: r else r)

/-- Sort-key computation: `list.sort(key=liq_usd)` first evaluates the key on
every element (propagating any error), decorating each pair with its key. -/
def keyed : List JVal → Except String (List (ℚ × JVal))
  | [] => .ok []
  | p :: rest => do
    let q ← liq_usd p
    let r ← keyed rest
    pure ((q, p) :: r)

/-- Descending order on decorated pairs: CPython's stable sort with
`reverse=True` keeps equal-keyed elements in their original order, which is
exactly a stable sort by this reflexive total relation. -/
def liqRel (a b : ℚ × JVal) : Prop := b.1 ≤ a.1

instance : DecidableRel liqRel := fun a b => inferInstanceAs (Decidable (b.1 ≤ a.1))

instance : IsTotal (ℚ × JVal) liqRel := ⟨fun a b => le_total b.1 a.1⟩

instance : IsTrans (ℚ × JVal) liqRel := ⟨fun _ _ _ h h' => le_trans h' h⟩

/-- Embedding of `pick_best_pair_from_list(pairs, prefer_chain)`.  Returns the
selected pair (`None` only on empty input) together with the final contents of
the input list object: `candidates.sort` mutates the input list exactly when
the chain filter came up empty. -/
def pick_best_pair_from_list (pairs : List JVal) (prefer_chain : String) :
    Except String (Option JVal × List JVal) :=
  if pairs.isEmpty then .ok (none, pairs)
  else do
    let pref ← filterChain pairs (pyLower prefer_chain)
    let kc ← keyed (if pref.isEmpty then pairs else pref)
    let sorted := (List.insertionSort liqRel kc).map Prod.snd
    pure (sorted.head?, if pref.isEmpty then sorted else pairs)

/-!
## Score calculator (`compute_score`, src/app.py lines 61-141)

`compute_score(pair)` reads `time.time()` internally; the embedding passes
that clock value as the explicit `now` parameter (epoch milliseconds).
-/

/-- Output record of `compute_score` (the returned dict, flattened). -/
structure ScoreResult where
  score : ℤ
  risk : String
  reasons : List String
  hasWhales : Bool
  fastMigration : Bool
  mliq : ℚ
  mtpm : ℚ
  mbuyRatio : ℚ
  mm5 : JVal
  mh1 : JVal
  mageMin : Option ℚ

/-- Pure tail of `compute_score`: the rule table, clamp, risk bucketing and
result assembly, once the fallible field extractions have produced `liq`,
`buys`, `sells`, the raw `m5`/`h1` values, `boosted` and `age_min`. -/
def finish (liq buys sells : ℚ) (m5 h1 : JVal) (boosted : Bool)
    (ageMin : Option ℚ) : ScoreResult :=
  let total := buys + sells
  let tpm : ℚ := if total > 0 then total / 5 else 0
  let buy_ratio : ℚ := if total > 0 then buys / total else 0
  let s : ℤ :=
    (if liq ≥ 25000 then 15 else if liq ≥ 10000 then 8 else 0) +
    (if tpm ≥ 15 then 10 else if tpm ≥ 8 then 6 else 0) +
    (if buy_ratio ≥ 0.60 then 10 else if buy_ratio ≥ 0.55 then 6 else 0) +
    (if numLike m5 ∧ numVal m5 > 0 then 5 else 0) +
    (if numLike h1 ∧ numVal h1 > 0 then 5 else 0) +
    (if boosted then 5 else 0) +
    (if ∃ a ∈ ageMin, a ≤ 60 then 5 else 0)
  let reasons : List String :=
    (if liq ≥ 25000 then ["liq≥25k"] else if liq ≥ 10000 then ["liq≥10k"] else []) ++
    (if tpm ≥ 15 then ["tx/min≥15"] else if tpm ≥ 8 then ["tx/min≥8"] else []) ++
    (if buy_ratio ≥ 0.60 then ["buy≥60%"] else if buy_ratio ≥ 0.55 then ["buy≥55%"] else []) ++
    (if numLike m5 ∧ numVal m5 > 0 then ["m5↑"] else []) ++
    (if numLike h1 ∧ numVal h1 > 0 then ["h1↑"] else []) ++
    (if boosted then ["boosted"] else []) ++
    (if ∃ a ∈ ageMin, a ≤ 60 then ["new≤60m"] else [])
  let score_pct : ℤ := max 0 (min 100 s)
  { score := score_pct
    risk := if score_pct < 40 then "high" else if score_pct < 70 then "mid" else "low"
    reasons := reasons
    hasWhales := false
    fastMigration := decide (∃ a ∈ ageMin, a ≤ 10)
    mliq := liq
    mtpm := pyRound tpm 2
    mbuyRatio := pyRound buy_ratio 3
    mm5 := m5
    mh1 := h1
    mageMin := ageMin }

/-- Embedding of `compute_score(pair)`, with the internal `time.time()*1000`
read passed as `now`.  Each fallible extraction mirrors one line of the
source; a wrongly-typed truthy field raises exactly as in Python. -/
def compute_score (pair : JVal) (now : ℤ) : Except String ScoreResult := do
  let liqRaw ← getF pair "liquidity"
  let usd ← getF (pyOr liqRaw (.obj [])) "usd"
  let liq ← pyNumQ (pyOr (pyOr usd (.num 0)) (.num 0))
  let txRaw ← getF pair "txns"
  let m5Raw ← getF (pyOr txRaw (.obj [])) "m5"
  let tx5 := pyOr m5Raw (.obj [])
  let buysRaw ← getFD tx5 "buys" (.num 0)
  let buys ← pyFloat (pyOr buysRaw (.num 0))
  let sellsRaw ← getFD tx5 "sells" (.num 0)
  let sells ← pyFloat (pyOr sellsRaw (.num 0))
  let pcRaw ← getF pair "priceChange"
  let pc := pyOr pcRaw (.obj [])
  let m5 ← getF pc "m5"
  let h1 ← getF pc "h1"
  let boostsRaw ← getF pair "boosts"
  let boosted := truthy (pyOr boostsRaw (.num 0))
  let createdRaw ← getF pair "pairCreatedAt"
  let created := pyOr createdRaw (.num 0)
  let ageMin ← if truthy created then do
      let c ← pyNumQ created
      pure (some (max 0 (((now : ℚ) - c) / 60000)))
    else pure (none : Option ℚ)
  pure (finish liq buys sells m5 h1 boosted ageMin)

/-!
## Bulk endpoint (`score_bulk`, src/app.py lines 188-208)

The upstream fetch is the only external effect; it is passed in as a function
`fetch : String → Except String JVal` (the embedding of `fetch_json` on the
token URL for one address).  The per-item `time.time()` reads are modelled by
the single `now` parameter.  The whole loop body sits inside
`try/except Exception`, so one item's failure becomes its `{address, error}`
entry and the endpoint itself always returns a results list.
-/

/-- Coercion of `data.get("pairs") or []` to the list the selector iterates:
a JSON array yields its elements; a truthy non-array makes the selector's
iteration raise in Python, modelled as an error here. -/
def asList : JVal → Except String (List JVal)
  | .arr l => .ok l
  | v => if truthy v then .error "TypeError" else .ok []

/-- One element of the bulk `results` array: either a full score payload with
its address and timestamp, or an `{address, error}` entry. -/
inductive BulkItem where
  | success (address : String) (res : ScoreResult) (updatedAt : ℤ)
  | failure (address : String) (error : String)

/-- Address carried by a bulk results entry. -/
def BulkItem.address : BulkItem → String
  | .success a _ _ => a
  | .failure a _ => a

/-- Body of the bulk loop for one address, with the `try/except` wrapper:
any raised error is caught and becomes a `failure` entry.  `if not pair:` is
a truthiness test, so a falsy selected pair — `None` or an empty dict —
yields the `not_found` entry. -/
def processOne (fetch : String → Except String JVal) (now : ℤ) (a : String) :
    BulkItem :=
  let r : Except String BulkItem := do
    let data ← fetch a
    let pv ← getF data "pairs"
    let pairs ← asList (pyOr pv (.arr []))
    let sel ← pick_best_pair_from_list pairs "sol"
    match sel.1 with
    | none => pure (.failure a "not_found")
    | some pair =>
        if truthy pair then do
          let payload ← compute_score pair now
          pure (.success a payload now)
        else pure (.failure a "not_found")
  match r with
  | .ok item => item
  | .error e => .failure a e

/-- Address cleaning of the bulk endpoint:
`[a.strip() for a in addresses.split(",") if a.strip()]`. -/
def cleanAddrs (addresses : String) : List String :=
  ((pySplitComma addresses).map pyStrip).filter (fun s => s ≠ "")

/-- Embedding of the `/score/bulk` handler body: clean the address list, cap
it at 50, process each address in order, never failing at request level. -/
def score_bulk (fetch : String → Except String JVal) (now : ℤ)
    (addresses : String) : List BulkItem :=
  ((cleanAddrs addresses).take 50).map (processOne fetch now)

/-!
## Spec-side characterizations and helper lemmas
-/

/-- Success test for the error monad. -/
def exOk {α : Type} : Except String α → Bool
  | .ok _ => true
  | .error _ => false

/-- Chain key as a total function (defined where `chainKey` succeeds). -/
def chainKeyD (p : JVal) : String := ((chainKey p).toOption).getD ""

/-- Liquidity sort key as a total function (defined where `liq_usd` succeeds). -/
def liqValD (p : JVal) : ℚ := ((liq_usd p).toOption).getD 0

/-- Well-formedness a pair needs for the selector not to raise on it. -/
def SelWF (p : JVal) : Prop := exOk (chainKey p) = true ∧ exOk (liq_usd p) = true

instance (p : JVal) : Decidable (SelWF p) := inferInstanceAs (Decidable (_ ∧ _))

/-- Modelled from the spec's words: the pairs kept by the chain filter. -/
def chainFilt (pairs : List JVal) (c : String) : List JVal :=
  pairs.filter (fun p => pyStartsWith (chainKeyD p) (pyLower c))

/-- Modelled from the spec's words: the candidate set — the chain-filtered
pairs, or all pairs when the filter comes up empty. -/
def cands (pairs : List JVal) (c : String) : List JVal :=
  if (chainFilt pairs c).isEmpty then pairs else chainFilt pairs c

/-- Modelled from the spec's words: the first-encountered pair of maximal
liquidity — on an exact key tie the earlier element wins. -/
def firstMaxK : List JVal → Option JVal
  | [] => none
  | a :: l =>
    match firstMaxK l with
    | none => some a
    | some b => if liqValD b ≤ liqValD a then some a else some b

theorem exOk_iff {α : Type} {e : Except String α} : exOk e = true ↔ ∃ a, e = .ok a := by
  cases e <;> simp [exOk]

theorem ok_bind {α β : Type} (a : α) (f : α → Except String β) :
    (Except.ok a >>= f) = f a := rfl

theorem except_bind_ok {α β : Type} {e : Except String α} {f : α → Except String β}
    {b : β} (h : (e >>= f) = .ok b) : ∃ a, e = .ok a ∧ f a = .ok b := by
  cases e with
  | error e => exact absurd h (by simp [Bind.bind, Except.bind])
  | ok a => exact ⟨a, rfl, by simpa [Bind.bind, Except.bind] using h⟩

theorem filterChain_ok {pairs : List JVal} {cl : String}
    (h : ∀ p ∈ pairs, exOk (chainKey p) = true) :
    filterChain pairs cl =
      .ok (pairs.filter (fun p => pyStartsWith (chainKeyD p) cl)) := by
  induction pairs with
  | nil => rfl
  | cons p rest ih =>
    obtain ⟨s, hs⟩ := exOk_iff.mp (h p (by simp))
    have ihr := ih (fun q hq => h q (List.mem_cons_of_mem _ hq))
    simp only [filterChain, hs, ihr, ok_bind]
    have hd : chainKeyD p = s := by simp [chainKeyD, hs, Except.toOption]
    by_cases hstart : pyStartsWith s cl = true
    · simp [List.filter_cons, hd, hstart, pure, Except.pure]
    · simp only [Bool.not_eq_true] at hstart
      simp [List.filter_cons, hd, hstart, pure, Except.pure]

theorem keyed_ok {l : List JVal} (h : ∀ p ∈ l, exOk (liq_usd p) = true) :
    keyed l = .ok (l.map (fun p => (liqValD p, p))) := by
  induction l with
  | nil => rfl
  | cons p rest ih =>
    obtain ⟨q, hq⟩ := exOk_iff.mp (h p (by simp))
    have ihr := ih (fun x hx => h x (List.mem_cons_of_mem _ hx))
    have hd : liqValD p = q := by simp [liqValD, hq, Except.toOption]
    simp [keyed, hq, ihr, ok_bind, hd, pure, Except.pure]

theorem mem_sort_key {l : List JVal} {x : ℚ × JVal}
    (hx : x ∈ List.insertionSort liqRel (l.map (fun p => (liqValD p, p)))) :
    x.1 = liqValD x.2 := by
  have := (List.perm_insertionSort liqRel _).mem_iff.mp hx
  obtain ⟨p, _, hp⟩ := List.mem_map.mp this
  rw [← hp]

theorem head_sort_firstMaxK (l : List JVal) :
    ((List.insertionSort liqRel (l.map fun p => (liqValD p, p))).map Prod.snd).head? =
      firstMaxK l := by
  rw [List.head?_map]
  induction l with
  | nil => rfl
  | cons a l ih =>
    rw [List.map_cons, List.insertionSort]
    rcases h : List.insertionSort liqRel (l.map fun p => (liqValD p, p)) with _ | ⟨b, t⟩
    · have hl : l = [] := by
        have hp := List.perm_insertionSort liqRel (l.map fun p => (liqValD p, p))
        rw [h] at hp
        simpa using List.map_eq_nil_iff.mp hp.nil_eq.symm
      subst hl
      simp [firstMaxK, List.orderedInsert]
    · rw [h] at ih
      have hb : firstMaxK l = some b.2 := by simpa using ih.symm
      have hbk : b.1 = liqValD b.2 :=
        mem_sort_key (l := l) (by rw [h]; exact List.mem_cons_self b t)
      simp only [List.orderedInsert]
      by_cases hc : liqRel (liqValD a, a) b
      · rw [if_pos hc]
        have hcv : liqValD b.2 ≤ liqValD a := by
          have h' := hc; rw [liqRel, hbk] at h'; exact h'
        simp [firstMaxK, hb, hcv]
      · rw [if_neg hc]
        have hcv : ¬ liqValD b.2 ≤ liqValD a := by
          intro hle; exact hc (by rw [liqRel, hbk]; exact hle)
        simp [firstMaxK, hb, hcv]

theorem firstMaxK_cons_ne (a : JVal) (l : List JVal) : firstMaxK (a :: l) ≠ none := by
  rw [firstMaxK]
  rcases h : firstMaxK l with _ | c
  · simp
  · by_cases hc : liqValD c ≤ liqValD a <;> simp [hc]

theorem firstMaxK_spec {l : List JVal} {b : JVal} (h : firstMaxK l = some b) :
    ∃ l₁ l₂, l = l₁ ++ b :: l₂ ∧ (∀ q ∈ l₁, liqValD q < liqValD b) ∧
      ∀ q ∈ l, liqValD q ≤ liqValD b := by
  induction l generalizing b with
  | nil => exact absurd h (by simp [firstMaxK])
  | cons a l ih =>
    rcases hl : firstMaxK l with _ | c
    · have hl0 : l = [] := by
        cases l with
        | nil => rfl
        | cons x xs => exact absurd hl (firstMaxK_cons_ne x xs)
      subst hl0
      simp only [firstMaxK, Option.some.injEq] at h
      subst h
      exact ⟨[], [], rfl, by simp, by simp⟩
    · rw [firstMaxK, hl] at h
      simp only [] at h
      obtain ⟨l₁, l₂, hsplit, hlt, hle⟩ := ih hl
      by_cases hc : liqValD c ≤ liqValD a
      · rw [if_pos hc] at h
        simp only [Option.some.injEq] at h
        subst h
        refine ⟨[], l, rfl, by simp, ?_⟩
        intro q hq
        rcases List.mem_cons.mp hq with hq | hq
        · subst hq; exact le_refl _
        · exact (hle q hq).trans hc
      · rw [if_neg hc] at h
        simp only [Option.some.injEq] at h
        subst h
        refine ⟨a :: l₁, l₂, by rw [hsplit, List.cons_append], ?_, ?_⟩
        · intro q hq
          rcases List.mem_cons.mp hq with hq | hq
          · subst hq; exact lt_of_not_le hc
          · exact hlt q hq
        · intro q hq
          rcases List.mem_cons.mp hq with hq | hq
          · subst hq; exact le_of_lt (lt_of_not_le hc)
          · exact hle q hq

/-- Object test. -/
def isObjB : JVal → Bool
  | .obj _ => true
  | _ => false

theorem pick_eq (pairs : List JVal) (c : String)
    (hW : ∀ p ∈ pairs, SelWF p) (hne : pairs ≠ []) :
    pick_best_pair_from_list pairs c =
      .ok (firstMaxK (cands pairs c),
        if (chainFilt pairs c).isEmpty
        then (List.insertionSort liqRel
          ((cands pairs c).map fun p => (liqValD p, p))).map Prod.snd
        else pairs) := by
  have hb : pairs.isEmpty = false := by
    cases pairs with
    | nil => exact absurd rfl hne
    | cons a l => rfl
  unfold pick_best_pair_from_list
  rw [hb]
  simp only [Bool.false_eq_true, if_false]
  rw [filterChain_ok (fun p hp => (hW p hp).1)]
  rw [ok_bind]
  have hsub : ∀ p ∈ (if (pairs.filter
      (fun p => pyStartsWith (chainKeyD p) (pyLower c))).isEmpty
      then pairs
      else pairs.filter (fun p => pyStartsWith (chainKeyD p) (pyLower c))),
      exOk (liq_usd p) = true := by
    intro p hp
    split at hp
    · exact (hW p hp).2
    · exact (hW p (List.mem_of_mem_filter hp)).2
  rw [keyed_ok hsub, ok_bind]
  show Except.ok _ = _
  rw [Except.ok.injEq, Prod.mk.injEq]
  constructor
  · rw [List.head?_map] at *
    have := head_sort_firstMaxK (if (pairs.filter
      (fun p => pyStartsWith (chainKeyD p) (pyLower c))).isEmpty
      then pairs
      else pairs.filter (fun p => pyStartsWith (chainKeyD p) (pyLower c)))
    rw [List.head?_map] at this
    rw [this]
    simp only [cands, chainFilt]
  · simp only [cands, chainFilt]

/-!
## Claim theorems for the pair selector
-/

theorem map_snd_key :
    ∀ l : List JVal, ((l.map fun p => (liqValD p, p)).map Prod.snd) = l := by
  intro l
  induction l with
  | nil => rfl
  | cons x xs ih => simp [ih]

/-- Test pair on chain "eth" with liquidity 1. -/
def pEthLow : JVal := .obj [("chain", .str "eth"), ("liquidity", .obj [("usd", .num 1)])]

/-- Test pair on chain "eth" with liquidity 2. -/
def pEthHigh : JVal := .obj [("chain", .str "eth"), ("liquidity", .obj [("usd", .num 2)])]

/-- C4, counterexample.  The claim says the input sequence is unchanged after
every call; but with two "eth" pairs in ascending liquidity order and
preferred chain "sol", the chain filter is empty, `candidates` aliases the
input list, and `candidates.sort` reorders the caller's list in place. -/
theorem selector_mutation_counterexample :
    (pick_best_pair_from_list [pEthLow, pEthHigh] "sol").map Prod.snd ≠
      .ok [pEthLow, pEthHigh] := by
  intro h
  rw [show (pick_best_pair_from_list [pEthLow, pEthHigh] "sol").map Prod.snd
      = .ok [pEthHigh, pEthLow] from rfl] at h
  simp [pEthLow, pEthHigh] at h

/-- C4, amended.  `pick_best_pair_from_list` never mutates the element
dictionaries and the final list is always a permutation of the input; the
input list order is untouched whenever at least one pair matches the chain
filter, and only the empty-filter fallback sorts the caller's list in
place. -/
theorem selector_frame (pairs : List JVal) (c : String)
    (hW : ∀ p ∈ pairs, SelWF p) :
    ∃ sel fin, pick_best_pair_from_list pairs c = .ok (sel, fin) ∧
      fin.Perm pairs ∧
      ((chainFilt pairs c).isEmpty = false → fin = pairs) := by
  cases pairs with
  | nil => exact ⟨none, [], rfl, List.Perm.refl _, fun _ => rfl⟩
  | cons a t =>
    rw [pick_eq (a :: t) c hW (by simp)]
    refine ⟨_, _, rfl, ?_, ?_⟩
    · rcases hE : (chainFilt (a :: t) c).isEmpty with _ | _
      · simp only [hE, Bool.false_eq_true, if_false]
        exact List.Perm.refl _
      · simp only [hE, if_true]
        have hcands : cands (a :: t) c = a :: t := by simp [cands, hE]
        rw [hcands]
        have hperm := (List.perm_insertionSort liqRel
          ((a :: t).map fun p => (liqValD p, p))).map Prod.snd
        rw [map_snd_key] at hperm
        exact hperm
    · intro hE
      simp only [hE, Bool.false_eq_true, if_false]

/-- Witness for the amended C4 theorem at a concrete input. -/
theorem selector_frame_witness :
    ∃ sel fin, pick_best_pair_from_list [pEthLow, pEthHigh] "sol" = .ok (sel, fin) ∧
      fin.Perm [pEthLow, pEthHigh] ∧
      ((chainFilt [pEthLow, pEthHigh] "sol").isEmpty = false →
        fin = [pEthLow, pEthHigh]) :=
  selector_frame [pEthLow, pEthHigh] "sol" (by decide)

/-- C5.  On the empty list the selector returns `None`; on a non-empty list
it always returns a pair of maximal liquidity among the candidate set — the
chain-filtered pairs when any pair matches the preferred prefix (so a
matching pair beats a higher-liquidity non-matching pair), and the whole
list otherwise (never failing solely due to chain mismatch). -/
theorem selector_best (pairs : List JVal) (c : String)
    (hW : ∀ p ∈ pairs, SelWF p) :
    pick_best_pair_from_list ([] : List JVal) c = .ok (none, []) ∧
    (pairs ≠ [] → ∃ p fin,
      pick_best_pair_from_list pairs c = .ok (some p, fin) ∧
      p ∈ cands pairs c ∧
      (∀ q ∈ cands pairs c, liqValD q ≤ liqValD p) ∧
      ((chainFilt pairs c).isEmpty = false → p ∈ chainFilt pairs c)) := by
  refine ⟨rfl, fun hne => ?_⟩
  rw [pick_eq pairs c hW hne]
  rcases hc : cands pairs c with _ | ⟨a, t⟩
  · exfalso
    rw [cands] at hc
    rcases hE : (chainFilt pairs c).isEmpty with _ | _
    · rw [hE] at hc
      simp only [Bool.false_eq_true, if_false] at hc
      rw [hc] at hE
      exact absurd hE (by simp [List.isEmpty])
    · rw [hE] at hc
      simp only [if_true] at hc
      exact hne hc
  · rcases hfm : firstMaxK (a :: t) with _ | p
    · exact absurd hfm (firstMaxK_cons_ne a t)
    · obtain ⟨l₁, l₂, hsplit, _, hle⟩ := firstMaxK_spec hfm
      refine ⟨p, _, rfl, ?_, ?_, ?_⟩
      · rw [hsplit]; simp
      · exact hle
      · intro hE
        have : cands pairs c = chainFilt pairs c := by
          simp [cands, hE]
        rw [← this, hc, hsplit]; simp

/-- Witness for the C5 theorem at a concrete input: a matching "sol" pair of
liquidity 10 is selected over a non-matching "eth" pair of liquidity 20. -/
theorem selector_best_witness :
    pick_best_pair_from_list ([] : List JVal) "sol" = .ok (none, []) ∧
    ([.obj [("chain", .str "eth"), ("liquidity", .obj [("usd", .num 20)])],
      .obj [("chainId", .str "solana"), ("liquidity", .obj [("usd", .num 10)])]] ≠
        ([] : List JVal) → ∃ p fin,
      pick_best_pair_from_list
        [.obj [("chain", .str "eth"), ("liquidity", .obj [("usd", .num 20)])],
         .obj [("chainId", .str "solana"), ("liquidity", .obj [("usd", .num 10)])]]
        "sol" = .ok (some p, fin) ∧
      p ∈ cands
        [.obj [("chain", .str "eth"), ("liquidity", .obj [("usd", .num 20)])],
         .obj [("chainId", .str "solana"), ("liquidity", .obj [("usd", .num 10)])]]
        "sol" ∧
      (∀ q ∈ cands
        [.obj [("chain", .str "eth"), ("liquidity", .obj [("usd", .num 20)])],
         .obj [("chainId", .str "solana"), ("liquidity", .obj [("usd", .num 10)])]]
        "sol", liqValD q ≤ liqValD p) ∧
      ((chainFilt
        [.obj [("chain", .str "eth"), ("liquidity", .obj [("usd", .num 20)])],
         .obj [("chainId", .str "solana"), ("liquidity", .obj [("usd", .num 10)])]]
        "sol").isEmpty = false → p ∈ chainFilt
        [.obj [("chain", .str "eth"), ("liquidity", .obj [("usd", .num 20)])],
         .obj [("chainId", .str "solana"), ("liquidity", .obj [("usd", .num 10)])]]
        "sol")) :=
  selector_best _ "sol" (by decide)

/-- C7.  When the selector returns a pair, that pair sits at a position of
the candidate list such that every earlier candidate has strictly smaller
liquidity and no candidate has larger liquidity: on exact ties the
first-encountered maximum wins (CPython's sort is stable and `reverse=True`
preserves the original order of equal keys).  Moreover a missing or
non-dict `liquidity` field yields key 0.0. -/
theorem selector_stable_tie (pairs : List JVal) (c : String)
    (hW : ∀ p ∈ pairs, SelWF p) :
    (∀ p fin, pick_best_pair_from_list pairs c = .ok (some p, fin) →
      ∃ l₁ l₂, cands pairs c = l₁ ++ p :: l₂ ∧
        (∀ q ∈ l₁, liqValD q < liqValD p) ∧
        ∀ q ∈ cands pairs c, liqValD q ≤ liqValD p) ∧
    (∀ l, isObjB ((l.lookup "liquidity").getD JVal.null) = false →
      liq_usd (.obj l) = .ok 0) := by
  constructor
  · intro p fin hpick
    have hne : pairs ≠ [] := by
      intro h0
      subst h0
      rw [show pick_best_pair_from_list ([] : List JVal) c = .ok (none, [])
        from rfl] at hpick
      simp at hpick
    rw [pick_eq pairs c hW hne] at hpick
    have hfm : firstMaxK (cands pairs c) = some p := by
      rw [Except.ok.injEq, Prod.mk.injEq] at hpick
      exact hpick.1
    exact firstMaxK_spec hfm
  · intro l hno
    rw [liq_usd]
    rw [show getF (.obj l) "liquidity" = .ok ((l.lookup "liquidity").getD .null)
      from rfl, ok_bind]
    rcases hv : (l.lookup "liquidity").getD JVal.null with _ | b | q | s | la | lo
    · rfl
    · cases b <;> simp [pyOr, truthy, pyFloat]
    · by_cases hq : q = 0 <;> simp [pyOr, truthy, hq, pyFloat]
    · by_cases hs : s = "" <;> simp [pyOr, truthy, hs, pyFloat]
    · cases la <;> simp [pyOr, truthy, pyFloat, List.isEmpty]
    · rw [hv] at hno
      exact absurd hno (by simp [isObjB])

/-- Witness for the C7 theorem: two pairs tied at liquidity 7 on chain "sol";
the selector's decomposition puts the returned pair after only
strictly-smaller candidates. -/
theorem selector_stable_tie_witness :
    (∀ p fin, pick_best_pair_from_list
        [.obj [("chain", .str "sol"), ("liquidity", .obj [("usd", .num 7)])],
         .obj [("chain", .str "sol"), ("liquidity", .obj [("usd", .num 7)]),
           ("x", .num 1)]] "sol" = .ok (some p, fin) →
      ∃ l₁ l₂, cands
          [.obj [("chain", .str "sol"), ("liquidity", .obj [("usd", .num 7)])],
           .obj [("chain", .str "sol"), ("liquidity", .obj [("usd", .num 7)]),
             ("x", .num 1)]] "sol" = l₁ ++ p :: l₂ ∧
        (∀ q ∈ l₁, liqValD q < liqValD p) ∧
        ∀ q ∈ cands
          [.obj [("chain", .str "sol"), ("liquidity", .obj [("usd", .num 7)])],
           .obj [("chain", .str "sol"), ("liquidity", .obj [("usd", .num 7)]),
             ("x", .num 1)]] "sol", liqValD q ≤ liqValD p) ∧
    (∀ l, isObjB ((l.lookup "liquidity").getD JVal.null) = false →
      liq_usd (.obj l) = .ok 0) :=
  selector_stable_tie
    [.obj [("chain", .str "sol"), ("liquidity", .obj [("usd", .num 7)])],
     .obj [("chain", .str "sol"), ("liquidity", .obj [("usd", .num 7)]),
       ("x", .num 1)]] "sol" (by decide)

/-!
## Helper lemmas for the score calculator
-/

theorem pure_eq_ok {α : Type} (a : α) : (pure a : Except String α) = .ok a := rfl

theorem compute_score_shape {p : JVal} {now : ℤ} {r : ScoreResult}
    (h : compute_score p now = .ok r) :
    ∃ liq buys sells m5 h1 boosted ageMin,
      r = finish liq buys sells m5 h1 boosted ageMin := by
  unfold compute_score at h
  obtain ⟨liqRaw, _, h⟩ := except_bind_ok h
  obtain ⟨usd, _, h⟩ := except_bind_ok h
  obtain ⟨liq, _, h⟩ := except_bind_ok h
  obtain ⟨txRaw, _, h⟩ := except_bind_ok h
  obtain ⟨m5Raw, _, h⟩ := except_bind_ok h
  obtain ⟨buysRaw, _, h⟩ := except_bind_ok h
  obtain ⟨buys, _, h⟩ := except_bind_ok h
  obtain ⟨sellsRaw, _, h⟩ := except_bind_ok h
  obtain ⟨sells, _, h⟩ := except_bind_ok h
  obtain ⟨pcRaw, _, h⟩ := except_bind_ok h
  obtain ⟨m5, _, h⟩ := except_bind_ok h
  obtain ⟨h1, _, h⟩ := except_bind_ok h
  obtain ⟨boostsRaw, _, h⟩ := except_bind_ok h
  obtain ⟨createdRaw, _, h⟩ := except_bind_ok h
  simp only [] at h
  split at h
  · obtain ⟨c, _, h⟩ := except_bind_ok h
    obtain ⟨y, _, h⟩ := except_bind_ok h
    rw [pure_eq_ok, Except.ok.injEq] at h
    exact ⟨_, _, _, _, _, _, _, h.symm⟩
  · obtain ⟨y, _, h⟩ := except_bind_ok h
    rw [pure_eq_ok, Except.ok.injEq] at h
    exact ⟨_, _, _, _, _, _, _, h.symm⟩

/-- Modelled from the spec's words: the risk bucketing as a pure function of
the score alone (40 and 70 inclusive lower bounds of "mid" and "low"). -/
def riskOfScore (n : ℤ) : String :=
  if n < 40 then "high" else if n < 70 then "mid" else "low"

theorem finish_score_risk (liq buys sells : ℚ) (m5 h1 : JVal) (boosted : Bool)
    (ageMin : Option ℚ) :
    0 ≤ (finish liq buys sells m5 h1 boosted ageMin).score ∧
    (finish liq buys sells m5 h1 boosted ageMin).score ≤ 100 ∧
    (finish liq buys sells m5 h1 boosted ageMin).risk =
      riskOfScore (finish liq buys sells m5 h1 boosted ageMin).score := by
  refine ⟨?_, ?_, ?_⟩
  · exact le_max_left 0 _
  · exact max_le (by norm_num) (min_le_left _ _)
  · rfl

/-- Total field lookup with default, matching `p.get(k, d)` on a dict. -/
def objLookupD (p : JVal) (k : String) (d : JVal) : JVal :=
  match p with
  | .obj l => (l.lookup k).getD d
  | _ => d

theorem getF_of_isObj {p : JVal} (h : isObjB p = true) (k : String) :
    getF p k = .ok (objLookup p k) := by
  cases p <;> simp_all [isObjB, getF, objLookup]

theorem getFD_of_isObj {p : JVal} (h : isObjB p = true) (k : String) (d : JVal) :
    getFD p k d = .ok (objLookupD p k d) := by
  cases p <;> simp_all [isObjB, getFD, objLookupD]

theorem pyNumQ_numLike {v : JVal} (h : numLike v = true) :
    pyNumQ v = .ok (numVal v) := by
  cases v <;> simp [numLike] at h ⊢ <;> rfl

theorem pyFloat_numLike {v : JVal} (h : numLike v = true) :
    pyFloat v = .ok (numVal v) := by
  cases v <;> simp [numLike] at h ⊢ <;> rfl

/-- Fields whose presence with the expected type (or absence, or a falsy
value) lets every extraction in `compute_score` succeed: the pair itself is a
dict; `liquidity` (after the `or {}` default) is a dict whose `usd` defaults
to a number; `txns` and its `m5` window likewise default to dicts with
numeric `buys`/`sells`; `priceChange` defaults to a dict; `pairCreatedAt`
defaults to a number. -/
def wf_pair (p : JVal) : Bool :=
  isObjB p &&
  isObjB (pyOr (objLookup p "liquidity") (.obj [])) &&
  numLike (pyOr (pyOr (objLookup (pyOr (objLookup p "liquidity") (.obj []))
    "usd") (.num 0)) (.num 0)) &&
  isObjB (pyOr (objLookup p "txns") (.obj [])) &&
  isObjB (pyOr (objLookup (pyOr (objLookup p "txns") (.obj [])) "m5") (.obj [])) &&
  numLike (pyOr (objLookupD (pyOr (objLookup (pyOr (objLookup p "txns")
    (.obj [])) "m5") (.obj [])) "buys" (.num 0)) (.num 0)) &&
  numLike (pyOr (objLookupD (pyOr (objLookup (pyOr (objLookup p "txns")
    (.obj [])) "m5") (.obj [])) "sells" (.num 0)) (.num 0)) &&
  isObjB (pyOr (objLookup p "priceChange") (.obj [])) &&
  numLike (pyOr (objLookup p "pairCreatedAt") (.num 0))

/-!
## Claim theorems for the score calculator
-/

/-- C1, counterexample.  The claim says `compute_score` never raises, even
when `liquidity` is a number instead of an object; but for
`{"liquidity": 5}` the source evaluates `(5).get("usd")` on line 65 and
raises `AttributeError`. -/
theorem compute_score_raises_counterexample :
    compute_score (.obj [("liquidity", .num 5)]) 0 = .error "AttributeError" :=
  rfl

/-- C1, amended.  Missing fields, falsy field values and correctly-typed
fields never raise: on every pair whose relevant fields are absent, falsy or
of the expected type (`wf_pair`), `compute_score` returns a result.  (A
*truthy wrongly-typed* field — e.g. a numeric or string `liquidity` — does
raise, which is what the counterexample shows.) -/
theorem compute_score_total_wf (p : JVal) (now : ℤ) (h : wf_pair p = true) :
    ∃ r, compute_score p now = .ok r := by
  simp only [wf_pair, Bool.and_eq_true] at h
  obtain ⟨⟨⟨⟨⟨⟨⟨⟨h1, h2⟩, h3⟩, h4⟩, h5⟩, h6⟩, h7⟩, h8⟩, h9⟩ := h
  unfold compute_score
  simp only [getF_of_isObj h1, getF_of_isObj h2, getF_of_isObj h4,
    getF_of_isObj h5, getF_of_isObj h8, getFD_of_isObj h5,
    pyNumQ_numLike h3, pyFloat_numLike h6, pyFloat_numLike h7, ok_bind]
  by_cases ht : truthy (pyOr (objLookup p "pairCreatedAt") (.num 0)) = true
  · simp only [ht, if_true, pyNumQ_numLike h9, ok_bind, pure_eq_ok]
    exact ⟨_, rfl⟩
  · simp only [Bool.not_eq_true] at ht
    simp only [ht, Bool.false_eq_true, if_false, ok_bind, pure_eq_ok]
    exact ⟨_, rfl⟩

/-- Witness for the amended C1 theorem at a concrete well-formed pair. -/
theorem compute_score_total_wf_witness :
    wf_pair (.obj [("liquidity", .obj [("usd", .num 12000)]),
      ("txns", .obj [("m5", .obj [("buys", .num 3), ("sells", .num 1)])])])
      = true ∧
    ∃ r, compute_score (.obj [("liquidity", .obj [("usd", .num 12000)]),
      ("txns", .obj [("m5", .obj [("buys", .num 3), ("sells", .num 1)])])])
      77 = .ok r :=
  ⟨by decide, compute_score_total_wf _ 77 (by decide)⟩

/-- C3.  The calculator is deterministic in its two inputs: the pair record
and the clock value (the source's internal `time.time()` read, modelled as
the explicit `now` parameter).  Identical `(pair, now)` give identical
results — score, risk, reasons, flags and metrics alike. -/
theorem compute_score_deterministic (p₁ p₂ : JVal) (n₁ n₂ : ℤ)
    (hp : p₁ = p₂) (hn : n₁ = n₂) :
    compute_score p₁ n₁ = compute_score p₂ n₂ := by
  rw [hp, hn]

/-- Witness for the C3 theorem at a concrete input. -/
theorem compute_score_deterministic_witness :
    compute_score (.obj []) 0 = compute_score (.obj []) 0 :=
  compute_score_deterministic (.obj []) (.obj []) 0 0 rfl rfl

/-- C6.  Whenever `compute_score` returns, the score is an integer in
`[0, 100]` and the risk label is the pure threshold function of the score
alone: "high" below 40, "mid" in `[40, 70)`, "low" from 70 up. -/
theorem score_bounds_risk (p : JVal) (now : ℤ) (r : ScoreResult)
    (h : compute_score p now = .ok r) :
    0 ≤ r.score ∧ r.score ≤ 100 ∧ r.risk = riskOfScore r.score := by
  obtain ⟨liq, buys, sells, m5, h1, boosted, ageMin, rfl⟩ := compute_score_shape h
  exact finish_score_risk liq buys sells m5 h1 boosted ageMin

/-- Witness for the C6 theorem: the empty pair scores 0 with risk "high". -/
theorem score_bounds_risk_witness :
    0 ≤ (finish 0 0 0 JVal.null JVal.null false none).score ∧
    (finish 0 0 0 JVal.null JVal.null false none).score ≤ 100 ∧
    (finish 0 0 0 JVal.null JVal.null false none).risk =
      riskOfScore (finish 0 0 0 JVal.null JVal.null false none).score :=
  score_bounds_risk (.obj []) 0 _ rfl

set_option maxHeartbeats 1000000 in
theorem finish_tiers (liq buys sells : ℚ) (m5 h1 : JVal) (boosted : Bool)
    (ageMin : Option ℚ) :
    (¬ ("liq≥25k" ∈ (finish liq buys sells m5 h1 boosted ageMin).reasons ∧
        "liq≥10k" ∈ (finish liq buys sells m5 h1 boosted ageMin).reasons)) ∧
    (¬ ("tx/min≥15" ∈ (finish liq buys sells m5 h1 boosted ageMin).reasons ∧
        "tx/min≥8" ∈ (finish liq buys sells m5 h1 boosted ageMin).reasons)) ∧
    (¬ ("buy≥60%" ∈ (finish liq buys sells m5 h1 boosted ageMin).reasons ∧
        "buy≥55%" ∈ (finish liq buys sells m5 h1 boosted ageMin).reasons)) := by
  unfold finish
  dsimp only
  split_ifs <;> refine ⟨?_, ?_, ?_⟩ <;> decide

/-- C8.  Whenever `compute_score` returns, the reasons list holds at most one
tag per two-tier category: never both "liq≥25k" and "liq≥10k", never both
"tx/min≥15" and "tx/min≥8", never both "buy≥60%" and "buy≥55%" (each
category is an if/elif in the source). -/
theorem reasons_tiers_exclusive (p : JVal) (now : ℤ) (r : ScoreResult)
    (h : compute_score p now = .ok r) :
    (¬ ("liq≥25k" ∈ r.reasons ∧ "liq≥10k" ∈ r.reasons)) ∧
    (¬ ("tx/min≥15" ∈ r.reasons ∧ "tx/min≥8" ∈ r.reasons)) ∧
    (¬ ("buy≥60%" ∈ r.reasons ∧ "buy≥55%" ∈ r.reasons)) := by
  obtain ⟨liq, buys, sells, m5, h1, boosted, ageMin, rfl⟩ := compute_score_shape h
  exact finish_tiers liq buys sells m5 h1 boosted ageMin

/-- Witness for the C8 theorem at a concrete input. -/
theorem reasons_tiers_exclusive_witness :
    (¬ ("liq≥25k" ∈ (finish 0 0 0 JVal.null JVal.null false none).reasons ∧
        "liq≥10k" ∈ (finish 0 0 0 JVal.null JVal.null false none).reasons)) ∧
    (¬ ("tx/min≥15" ∈ (finish 0 0 0 JVal.null JVal.null false none).reasons ∧
        "tx/min≥8" ∈ (finish 0 0 0 JVal.null JVal.null false none).reasons)) ∧
    (¬ ("buy≥60%" ∈ (finish 0 0 0 JVal.null JVal.null false none).reasons ∧
        "buy≥55%" ∈ (finish 0 0 0 JVal.null JVal.null false none).reasons)) :=
  reasons_tiers_exclusive (.obj [("boosts", .num 0)]) 5 _ rfl

/-- Spec scenario pair: liquidity 30000 USD, 40 buys and 10 sells in the
5-minute window, m5 +2.5, h1 +1.1, boosted, created 5 minutes before `now`. -/
def pairC2 (now : ℤ) : JVal := .obj [
  ("liquidity", .obj [("usd", .num 30000)]),
  ("txns", .obj [("m5", .obj [("buys", .num 40), ("sells", .num 10)])]),
  ("priceChange", .obj [("m5", .num 2.5), ("h1", .num 1.1)]),
  ("boosts", .num 1),
  ("pairCreatedAt", .num ((now : ℚ) - 300000))]

/-- What the code actually returns on the spec scenario: with 50 transactions
in 5 minutes, `tpm = 10` hits the `tpm >= 8` tier (+6, "tx/min≥8"), not the
`tpm >= 15` tier, so the total is 15+6+10+5+5+5+5 = 51. -/
def resC2 : ScoreResult :=
  { score := 51
    risk := "mid"
    reasons := ["liq≥25k", "tx/min≥8", "buy≥60%", "m5↑", "h1↑", "boosted", "new≤60m"]
    hasWhales := false
    fastMigration := true
    mliq := 30000
    mtpm := 10
    mbuyRatio := 0.8
    mm5 := .num 2.5
    mh1 := .num 1.1
    mageMin := some 5 }

theorem compute_score_pairC2_eval (now : ℤ) (h : 300000 < now) :
    compute_score (pairC2 now) now = .ok resC2 := by
  have htr : truthy (.num ((now : ℚ) - 300000)) = true := by
    simp only [truthy, bne_iff_ne, ne_eq, decide_eq_true_eq]
    intro hc
    rw [sub_eq_zero] at hc
    have h' : (300000 : ℚ) < (now : ℚ) := by exact_mod_cast h
    exact absurd hc.symm (ne_of_lt h')
  have epy : pyOr (.num ((now : ℚ) - 300000)) (.num 0) = .num ((now : ℚ) - 300000) := by
    simp [pyOr, htr]
  have hage : (0 : ℚ) ⊔ (((now : ℚ) - ((now : ℚ) - 300000)) / 60000) = 5 := by
    rw [sub_sub_cancel]
    norm_num
  unfold compute_score pairC2
  simp only [
    show getF (.obj [
      ("liquidity", .obj [("usd", .num 30000)]),
      ("txns", .obj [("m5", .obj [("buys", .num 40), ("sells", .num 10)])]),
      ("priceChange", .obj [("m5", .num 2.5), ("h1", .num 1.1)]),
      ("boosts", .num 1),
      ("pairCreatedAt", .num ((now : ℚ) - 300000))]) "liquidity"
      = .ok (.obj [("usd", .num 30000)]) from rfl,
    show getF (.obj [
      ("liquidity", .obj [("usd", .num 30000)]),
      ("txns", .obj [("m5", .obj [("buys", .num 40), ("sells", .num 10)])]),
      ("priceChange", .obj [("m5", .num 2.5), ("h1", .num 1.1)]),
      ("boosts", .num 1),
      ("pairCreatedAt", .num ((now : ℚ) - 300000))]) "txns"
      = .ok (.obj [("m5", .obj [("buys", .num 40), ("sells", .num 10)])]) from rfl,
    show getF (.obj [
      ("liquidity", .obj [("usd", .num 30000)]),
      ("txns", .obj [("m5", .obj [("buys", .num 40), ("sells", .num 10)])]),
      ("priceChange", .obj [("m5", .num 2.5), ("h1", .num 1.1)]),
      ("boosts", .num 1),
      ("pairCreatedAt", .num ((now : ℚ) - 300000))]) "priceChange"
      = .ok (.obj [("m5", .num 2.5), ("h1", .num 1.1)]) from rfl,
    show getF (.obj [
      ("liquidity", .obj [("usd", .num 30000)]),
      ("txns", .obj [("m5", .obj [("buys", .num 40), ("sells", .num 10)])]),
      ("priceChange", .obj [("m5", .num 2.5), ("h1", .num 1.1)]),
      ("boosts", .num 1),
      ("pairCreatedAt", .num ((now : ℚ) - 300000))]) "boosts"
      = .ok (.num 1) from rfl,
    show getF (.obj [
      ("liquidity", .obj [("usd", .num 30000)]),
      ("txns", .obj [("m5", .obj [("buys", .num 40), ("sells", .num 10)])]),
      ("priceChange", .obj [("m5", .num 2.5), ("h1", .num 1.1)]),
      ("boosts", .num 1),
      ("pairCreatedAt", .num ((now : ℚ) - 300000))]) "pairCreatedAt"
      = .ok (.num ((now : ℚ) - 300000)) from rfl,
    show getF (pyOr (.obj [("usd", .num 30000)]) (.obj [])) "usd"
      = .ok (.num 30000) from rfl,
    show pyNumQ (pyOr (pyOr (.num 30000) (.num 0)) (.num 0)) = .ok 30000 from rfl,
    show getF (pyOr (.obj [("m5", .obj [("buys", .num 40), ("sells", .num 10)])])
      (.obj [])) "m5" = .ok (.obj [("buys", .num 40), ("sells", .num 10)]) from rfl,
    show getFD (pyOr (.obj [("buys", .num 40), ("sells", .num 10)]) (.obj []))
      "buys" (.num 0) = .ok (.num 40) from rfl,
    show getFD (pyOr (.obj [("buys", .num 40), ("sells", .num 10)]) (.obj []))
      "sells" (.num 0) = .ok (.num 10) from rfl,
    show pyFloat (pyOr (.num 40) (.num 0)) = .ok 40 from rfl,
    show pyFloat (pyOr (.num 10) (.num 0)) = .ok 10 from rfl,
    show getF (pyOr (.obj [("m5", .num 2.5), ("h1", .num 1.1)]) (.obj [])) "m5"
      = .ok (.num 2.5) from rfl,
    show getF (pyOr (.obj [("m5", .num 2.5), ("h1", .num 1.1)]) (.obj [])) "h1"
      = .ok (.num 1.1) from rfl,
    show truthy (pyOr (.num 1) (.num 0)) = true from rfl,
    show pyNumQ (.num ((now : ℚ) - 300000)) = .ok ((now : ℚ) - 300000) from rfl,
    ok_bind, pure_eq_ok, epy, htr, if_true, hage]
  rw [Except.ok.injEq]
  unfold finish resC2
  dsimp only
  congr 1 <;> norm_num [numLike, numVal, pyRound, roundHalfEven]

/-- C2, counterexample.  The claim predicts score 55 on the scenario pair;
the code returns 51 (the activity tier is `tpm >= 8`, worth 6 points, since
`tpm = (40+10)/5 = 10 < 15`). -/
theorem scenario_c2_counterexample :
    (compute_score (pairC2 1700000000000) 1700000000000).map ScoreResult.score ≠
      Except.ok 55 := by
  rw [compute_score_pairC2_eval 1700000000000 (by decide)]
  simp [resC2, Except.map]

/-- C2, amended.  On the scenario pair (liq 30000, 40 buys / 10 sells in 5m,
m5 +2.5, h1 +1.1, boosted, created now−5min) the code returns score
15+6+10+5+5+5+5 = 51 (not 55), risk "mid", the seven tags with "tx/min≥8" in
place of "tx/min≥15", and `flags.fastMigration = true`. -/
theorem scenario_c2_amended (now : ℤ) (h : 300000 < now) :
    compute_score (pairC2 now) now = .ok resC2 :=
  compute_score_pairC2_eval now h

/-- Witness for the amended C2 theorem at a concrete clock value. -/
theorem scenario_c2_amended_witness :
    compute_score (pairC2 1800000000000) 1800000000000 = .ok resC2 :=
  scenario_c2_amended 1800000000000 (by decide)

/-!
## Claim theorems for the bulk endpoint
-/

theorem error_bind {α β : Type} (e : String) (f : α → Except String β) :
    (Except.error e >>= f : Except String β) = .error e := rfl

theorem processOne_address (fetch : String → Except String JVal) (now : ℤ)
    (a : String) : (processOne fetch now a).address = a := by
  unfold processOne
  simp only []
  split
  · rename_i item heq
    obtain ⟨data, _, heq⟩ := except_bind_ok heq
    obtain ⟨pv, _, heq⟩ := except_bind_ok heq
    obtain ⟨pairs, _, heq⟩ := except_bind_ok heq
    obtain ⟨sel, _, heq⟩ := except_bind_ok heq
    rcases hsel : sel.1 with _ | pair <;> rw [hsel] at heq <;> simp only [] at heq
    · rw [pure_eq_ok, Except.ok.injEq] at heq
      rw [← heq]
      rfl
    · split at heq
      · obtain ⟨payload, _, heq⟩ := except_bind_ok heq
        rw [pure_eq_ok, Except.ok.injEq] at heq
        rw [← heq]
        rfl
      · rw [pure_eq_ok, Except.ok.injEq] at heq
        rw [← heq]
        rfl
  · rfl

theorem map_processOne_address (fetch : String → Except String JVal) (now : ℤ) :
    ∀ l : List String, (l.map (processOne fetch now)).map BulkItem.address = l := by
  intro l
  induction l with
  | nil => rfl
  | cons a rest ih => simp [ih, processOne_address]

/-- C9.  The bulk scorer is total (it returns a results list, never a
request-level failure), processes exactly the first 50 cleaned addresses,
emits one entry per processed address in input order carrying that address,
turns one address's upstream error into that item's `{address, error}` entry,
classifies a falsy selected pair (e.g. an upstream response whose only pair
is the empty dict, caught by the truthiness test `if not pair:`) as that
item's `not_found` error entry, and an item's outcome depends only on the
fetch result for its own address — so one failing fetch cannot disturb any
other entry. -/
theorem bulk_per_item_isolation (fetch fetch₂ : String → Except String JVal)
    (now : ℤ) (addresses : String) :
    (score_bulk fetch now addresses).length =
      ((cleanAddrs addresses).take 50).length ∧
    (score_bulk fetch now addresses).map BulkItem.address =
      (cleanAddrs addresses).take 50 ∧
    (∀ i a e, ((cleanAddrs addresses).take 50).get? i = some a →
      fetch a = .error e →
      (score_bulk fetch now addresses).get? i = some (.failure a e)) ∧
    (∀ i a, ((cleanAddrs addresses).take 50).get? i = some a →
      fetch a = .ok (.obj [("pairs", .arr [.obj []])]) →
      (score_bulk fetch now addresses).get? i =
        some (.failure a "not_found")) ∧
    (∀ i a, ((cleanAddrs addresses).take 50).get? i = some a →
      fetch₂ a = fetch a →
      (score_bulk fetch₂ now addresses).get? i =
        (score_bulk fetch now addresses).get? i) := by
  refine ⟨List.length_map _ _, map_processOne_address fetch now _, ?_, ?_, ?_⟩
  · intro i a e hi hf
    rw [score_bulk, List.get?_map, hi]
    have hfa : processOne fetch now a = .failure a e := by
      unfold processOne
      rw [hf]
      rfl
    simp [hfa]
  · intro i a hi hf
    rw [score_bulk, List.get?_map, hi]
    have hfa : processOne fetch now a = .failure a "not_found" := by
      unfold processOne
      rw [hf]
      rfl
    simp [hfa]
  · intro i a hi hagree
    rw [score_bulk, score_bulk, List.get?_map, List.get?_map, hi]
    have hsame : processOne fetch₂ now a = processOne fetch now a := by
      unfold processOne
      rw [hagree]
    simp [hsame]

/-- The fetch stub used by the bulk witnesses: the address "bad" fails
upstream, every other address returns a pairs array holding one empty
(falsy) pair dict, which the source's `if not pair:` classifies as
`not_found`. -/
def fetchW : String → Except String JVal := fun a =>
  if a = "bad" then .error "boom"
  else .ok (.obj [("pairs", .arr [.obj []])])

/-- Witness for the C9 theorem: in the batch "good,bad" the upstream-failing
second address yields exactly its own error entry, and the first address,
whose only candidate pair is the falsy empty dict, yields its own
`not_found` entry. -/
theorem bulk_per_item_isolation_witness :
    (score_bulk fetchW 0 "good,bad").get? 1 =
      some (BulkItem.failure "bad" "boom") ∧
    (score_bulk fetchW 0 "good,bad").get? 0 =
      some (BulkItem.failure "good" "not_found") :=
  ⟨(bulk_per_item_isolation fetchW fetchW 0 "good,bad").2.2.1 1 "bad" "boom"
      (by decide) rfl,
    (bulk_per_item_isolation fetchW fetchW 0 "good,bad").2.2.2.1 0 "good"
      (by decide) rfl⟩

/-- C10.  Address parsing strips ASCII whitespace around each comma-separated
segment and drops segments left empty, the 50-item cap applies to the cleaned
list, an input like `" a , ,b,"` yields exactly the entries for "a" and "b"
in order, and an all-blank list yields an empty results array rather than an
error. -/
theorem bulk_address_cleaning (fetch : String → Except String JVal) (now : ℤ) :
    cleanAddrs " a , ,b," = ["a", "b"] ∧
    (score_bulk fetch now " a , ,b,").map BulkItem.address = ["a", "b"] ∧
    score_bulk fetch now " ,  , " = [] ∧
    (∀ addresses, (score_bulk fetch now addresses).length =
      min 50 (cleanAddrs addresses).length) ∧
    (∀ addresses a, a ∈ cleanAddrs addresses → a ≠ "") := by
  refine ⟨rfl, ?_, rfl, ?_, ?_⟩
  · rw [score_bulk, show cleanAddrs " a , ,b," = ["a", "b"] from rfl]
    exact map_processOne_address fetch now _
  · intro addresses
    rw [score_bulk, List.length_map, List.length_take]
  · intro addresses a ha
    rw [cleanAddrs] at ha
    have := List.of_mem_filter ha
    simpa using this

/-- Witness for the C10 theorem at concrete inputs. -/
theorem bulk_address_cleaning_witness :
    cleanAddrs " a , ,b," = ["a", "b"] ∧ ("a" : String) ≠ "" :=
  ⟨(bulk_address_cleaning fetchW 0).1,
    (bulk_address_cleaning fetchW 0).2.2.2.2 " a , ,b," "a" (by decide)⟩
